import Mathlib

/-
Verification development for the PlantBot plant minigame (src/plant.py).

The Python module is shallowly embedded below.  Python floats are modelled as
exact rationals; Python dicts (the economy, the per-member inventories and the
fruit market) are modelled as insertion-ordered association lists, since dict
assignment updates an existing key in place and appends a fresh key at the end.
The two sources of randomness inside a tick (the fruit-generation roll and
choice, and the per-fruit market noise factor) are passed in explicitly as a
`TickRandom` record.  Message sending and pickling are I/O and carry no state,
so they are omitted.
-/

set_option autoImplicit false

namespace PlantBot

/-- Association-list lookup: the value at the first occurrence of the key,
mirroring Python dict access `d[k]`. -/
def alookup {α β : Type} [DecidableEq α] : List (α × β) → α → Option β
  | [], _ => none
  | (k, v) :: rest, a => if k = a then some v else alookup rest a

/-- Association-list update, mirroring Python dict assignment `d[k] = v`:
replace the value at an existing key in place, else append at the end. -/
def aset {α β : Type} [DecidableEq α] : List (α × β) → α → β → List (α × β)
  | [], a, b => [(a, b)]
  | (k, v) :: rest, a, b =>
    if k = a then (a, b) :: rest else (k, v) :: aset rest a b

/-- The fixed base-price catalog `FRUIT_MARKET` from src/plant.py. -/
def FRUIT_MARKET : List (String × ℚ) :=
  [(":apple:", 1), (":green_apple:", 11/10), (":banana:", 1/2),
   (":tangerine:", 6/5), (":grapes:", 4), (":strawberry:", 2/5),
   (":avocado:", 3), (":coconut:", 5), (":cheese:", 6),
   (":cookie:", 3/2), (":fish:", 15/2), (":gem:", 50)]

/-- The catalog of fruit kinds, in order (the keys of `FRUIT_MARKET`). -/
def fruitCatalog : List String := FRUIT_MARKET.map Prod.fst

/-- Base price of a fruit kind (`FRUIT_MARKET[fruit]` in the source). -/
def basePrice (f : String) : ℚ := (alookup FRUIT_MARKET f).getD 0

/-- The plant-only fields of a `PlantManager`. -/
structure PlantState where
  name : String
  hydration : ℚ
  happiness : ℚ
  alive : Bool
  death_cause : Option String
  fruits : List String

/-- The whole mutable state of one server's `PlantManager`. -/
structure ManagerState where
  plant : PlantState
  economy : List (Nat × ℚ)
  inventories : List (Nat × List String)
  market : List (String × ℚ)

/-- `__reset_plant`: the initial plant statistics. -/
def reset_plant : PlantState :=
  { name := "Plant", hydration := 100, happiness := 50,
    alive := true, death_cause := none, fruits := [] }

/-- A fresh manager state (`__reset_plant` followed by `__reset_economy`). -/
def initial_state : ManagerState :=
  { plant := reset_plant, economy := [], inventories := [],
    market := FRUIT_MARKET }

/-- `__mood`: the displayed mood label.  The Python if/elif chain returns
`None` (here `none`) when no branch matches. -/
def mood (h : ℚ) : Option String :=
  if h ≤ 1 then some ("Depressed")
  else if 0 < h ∧ h ≤ 20 then some ("Sad")
  else if 20 < h ∧ h ≤ 40 then some ("Wilting")
  else if 40 < h ∧ h ≤ 60 then some ("Mediocre")
  else if 60 < h ∧ h ≤ 80 then some ("Happy")
  else if 80 < h ∧ h ≤ 100 then some ("Joyous")
  else none

/-- One fruit's repricing inside `__adjust_market`: nudge up by 0.01 when
below base, nudge down by 0.01 when above twice base, then multiply by the
random fluctuation factor. -/
def adjustPrice (base p noise : ℚ) : ℚ :=
  let p1 := if p < base then p + 1/100 else p
  let p2 := if p1 > base * 2 then p1 - 1/100 else p1
  p2 * noise

/-- One iteration of the `for fruit in self.__market` loop of
`__adjust_market`, reading and writing the (possibly already updated)
market dict. -/
def adjust_step (noise : String → ℚ) (m : List (String × ℚ)) (f : String) :
    List (String × ℚ) :=
  aset m f (adjustPrice (basePrice f) ((alookup m f).getD 0) (noise f))

/-- `__adjust_market`: iterate over the market's keys, repricing each entry
in place.  `noise` gives the factor `random.uniform(0.98, 1.0225)` drawn for
each fruit. -/
def adjust_market (noise : String → ℚ) (mkt : List (String × ℚ)) :
    List (String × ℚ) :=
  (mkt.map Prod.fst).foldl (adjust_step noise) mkt

/-- `__add_wealth`: initialize the account at 0 if absent, then add. -/
def add_wealth (econ : List (Nat × ℚ)) (uid : Nat) (amount : ℚ) :
    List (Nat × ℚ) :=
  let econ1 := if (alookup econ uid).isSome then econ else econ ++ [(uid, 0)]
  aset econ1 uid ((alookup econ1 uid).getD 0 + amount)

/-- `__get_inventory`'s side effect on the inventories dict: create an empty
inventory for the member if absent. -/
def ensure_inventory (aid : Nat) (invs : List (Nat × List String)) :
    List (Nat × List String) :=
  if (alookup invs aid).isSome then invs else invs ++ [(aid, [])]

/-- The random inputs consumed by one tick: the fruit-generation roll from
`random.random()`, the index of the `random.choice` over the catalog, and
the per-fruit `random.uniform(0.98, 1.0225)` market factor. -/
structure TickRandom where
  fruitRoll : ℚ
  fruitChoice : Nat
  noise : String → ℚ

/-- `__tick`: while alive, decrement hydration by 0.1, run the two death
threshold checks, decay happiness by the 0.9925 factor, and possibly grow a
fruit; in every case reprice the market.  (The pickle dump is I/O.) -/
def tick (r : TickRandom) (s : ManagerState) : ManagerState :=
  let s1 :=
    if s.plant.alive then
      let hyd := s.plant.hydration - 1/10
      let cause1 := if hyd > 200 then some ("overwatering") else s.plant.death_cause
      let alive1 := if hyd > 200 then false else s.plant.alive
      let cause2 := if hyd < 0 then some ("underwatering") else cause1
      let alive2 := if hyd < 0 then false else alive1
      let hap := s.plant.happiness * (9925/10000)
      let fruits :=
        if s.plant.fruits.length < 20 ∧ r.fruitRoll ≤ hap / 400 then
          s.plant.fruits ++ [fruitCatalog.getD (r.fruitChoice % fruitCatalog.length) ""]
        else s.plant.fruits
      { s with plant := { s.plant with
          hydration := hyd,
          happiness := hap,
          alive := alive2,
          death_cause := cause2,
          fruits := fruits } }
    else s
  { s1 with market := adjust_market r.noise s1.market }

/-- `__respawn`: reset the plant fields, rejected while alive. -/
def respawn (s : ManagerState) : ManagerState :=
  if s.plant.alive then s else { s with plant := reset_plant }

/-- `__water`: hydration += 10 while alive, rejected when dead. -/
def water (s : ManagerState) : ManagerState :=
  if s.plant.alive then
    { s with plant := { s.plant with hydration := s.plant.hydration + 10 } }
  else s

/-- `__pet`: happiness = min(happiness + 10, 100) while alive. -/
def pet (s : ManagerState) : ManagerState :=
  if s.plant.alive then
    { s with plant := { s.plant with happiness := min (s.plant.happiness + 10) 100 } }
  else s

/-- `__set_name` (valid-usage path): replace the plant's name. -/
def set_name (n : String) (s : ManagerState) : ManagerState :=
  { s with plant := { s.plant with name := n } }

/-- `__harvest`: move the plant's whole fruit list into the caller's
inventory and clear it; with no fruit, only the lazy inventory creation
happens.  Note the source never consults `alive` here. -/
def harvest (aid : Nat) (s : ManagerState) : ManagerState :=
  let invs1 := ensure_inventory aid s.inventories
  let inv := (alookup invs1 aid).getD []
  if 0 < s.plant.fruits.length then
    { s with inventories := aset invs1 aid (inv ++ s.plant.fruits),
             plant := { s.plant with fruits := [] } }
  else { s with inventories := invs1 }

/-- `__check_inventory`: display only, but `__get_inventory` may create the
caller's empty inventory. -/
def check_inventory (aid : Nat) (s : ManagerState) : ManagerState :=
  { s with inventories := ensure_inventory aid s.inventories }

/-- `__check_wealth` (both the default and the `all` form): the display is
pure, but the account of the caller is initialized at 0 if absent. -/
def check_wealth (aid : Nat) (s : ManagerState) : ManagerState :=
  if (alookup s.economy aid).isSome then s
  else { s with economy := s.economy ++ [(aid, 0)] }

/-- `__check_market`: display only, no state effect. -/
def check_market (s : ManagerState) : ManagerState := s

/-- The loop condition of `__sell` for the targeted form:
`fruit == target_fruit and num_sold < num`. -/
def sell_cond (target : String) (num : Nat) (f : String) (n : Nat) : Bool :=
  f == target && decide (n < num)

/-- `list.remove(x)` on Python lists: drop the first occurrence. -/
def removeFirst : List String → String → List String
  | [], _ => []
  | y :: ys, x => if y = x then ys else y :: removeFirst ys x

/-- The result of the selling loop of `__sell`: the caller's inventory, the
market, the number of units sold and the total sale. -/
structure SellResult where
  inv : List String
  market : List (String × ℚ)
  numSold : Nat
  total : ℚ

/-- The `for fruit in inventory_copy` loop of `__sell`: iterate over a copy
of the inventory; for each eligible fruit remove its first occurrence from
the live inventory, credit the current market price, and depress that
price by the 0.8 factor. -/
def sell_loop (cond : String → Nat → Bool) :
    List String → List String → List (String × ℚ) → Nat → ℚ → SellResult
  | [], inv, mkt, n, t => ⟨inv, mkt, n, t⟩
  | f :: rest, inv, mkt, n, t =>
    if cond f n then
      let price := (alookup mkt f).getD 0
      sell_loop cond rest (removeFirst inv f) (aset mkt f (price * (8/10)))
        (n + 1) (t + price)
    else sell_loop cond rest inv mkt n t

/-- `__sell`, targeted form `sell <fruit> <num>`: run the loop, then credit
the total sale if anything was sold. -/
def sell (aid : Nat) (target : String) (num : Nat) (s : ManagerState) :
    ManagerState :=
  let invs1 := ensure_inventory aid s.inventories
  let inv := (alookup invs1 aid).getD []
  let res := sell_loop (sell_cond target num) inv inv s.market 0 0
  let s1 := { s with inventories := aset invs1 aid res.inv, market := res.market }
  if res.numSold = 0 then s1
  else { s1 with economy := add_wealth s1.economy aid res.total }

/-- `__sell`, `sell all` form: every fruit in the inventory is eligible. -/
def sell_all (aid : Nat) (s : ManagerState) : ManagerState :=
  let invs1 := ensure_inventory aid s.inventories
  let inv := (alookup invs1 aid).getD []
  let res := sell_loop (fun _ _ => true) inv inv s.market 0 0
  let s1 := { s with inventories := aset invs1 aid res.inv, market := res.market }
  if res.numSold = 0 then s1
  else { s1 with economy := add_wealth s1.economy aid res.total }

/-- The state-relevant operations dispatched by `process_cmd`, plus the
periodic tick.  Display-only commands are kept because they are claimed
(and mostly fail) to be state-free. -/
inductive Op where
  | tick (r : TickRandom)
  | respawn
  | water
  | pet
  | set_name (n : String)
  | harvest (aid : Nat)
  | check_inventory (aid : Nat)
  | check_wealth (aid : Nat)
  | check_market
  | sell (aid : Nat) (target : String) (num : Nat)
  | sell_all (aid : Nat)
  | summary

/-- One step of the manager: dispatch an operation to its handler
(`__summary` and unknown commands leave the state untouched). -/
def step : Op → ManagerState → ManagerState
  | Op.tick r, s => tick r s
  | Op.respawn, s => respawn s
  | Op.water, s => water s
  | Op.pet, s => pet s
  | Op.set_name n, s => set_name n s
  | Op.harvest aid, s => harvest aid s
  | Op.check_inventory aid, s => check_inventory aid s
  | Op.check_wealth aid, s => check_wealth aid s
  | Op.check_market, s => check_market s
  | Op.sell aid target num, s => sell aid target num s
  | Op.sell_all aid, s => sell_all aid s
  | Op.summary, s => s

/-- Run a sequence of operations, oldest first. -/
def steps : List Op → ManagerState → ManagerState
  | [], s => s
  | op :: rest, s => steps rest (step op s)

/-- Run a sequence of ticks, oldest first. -/
def ticks : List TickRandom → ManagerState → ManagerState
  | [], s => s
  | r :: rest, s => ticks rest (tick r s)

/-- The `sorted(..., key=..., reverse=True)` call of the bank leaderboard:
a stable descending sort of the economy entries by balance, modelled by a
stable insertion sort. -/
def insertDesc (x : Nat × ℚ) : List (Nat × ℚ) → List (Nat × ℚ)
  | [] => [x]
  | y :: ys => if y.2 ≤ x.2 then x :: y :: ys else y :: insertDesc x ys

/-- The leaderboard order produced by the `bank all` branch of
`__check_wealth`: all tracked accounts, in descending order of balance. -/
def leaderboard (econ : List (Nat × ℚ)) : List (Nat × ℚ) :=
  econ.foldr insertDesc []

/-- Number of occurrences of a token in a fruit list. -/
def countTok (x : String) : List String → Nat
  | [] => 0
  | y :: ys => (if y = x then 1 else 0) + countTok x ys

/-- Drop the first `k` occurrences of a token, keeping everything else in
order: the net inventory effect of selling `k` units of one kind. -/
def dropOcc : List String → String → Nat → List String
  | l, _, 0 => l
  | [], _, _ => []
  | y :: ys, x, Nat.succ k =>
    if y = x then dropOcc ys x k else y :: dropOcc ys x (Nat.succ k)

/-- Sum of the per-unit price factors when selling `K` units of one kind:
`1 + 4/5 + (4/5)^2 + ...` (each sale depresses the price by 0.8). -/
def geomSum : Nat → ℚ
  | 0 => 0
  | Nat.succ k => 1 + (4/5) * geomSum k

/-- The repricing rule exactly as claim C7 words it: increment by 0.01 when
below base, then multiply by the noise factor.  Used only to exhibit its
divergence from the source's `adjustPrice`, which also nudges the price
down by 0.01 when it exceeds twice the base. -/
def adjustPriceClaim (base p noise : ℚ) : ℚ :=
  (if p < base then p + 1/100 else p) * noise

/-- Deterministic tick randomness used for concrete inputs: the fruit roll 1
never spawns fruit and the market noise factor is 1. -/
def rUnit : TickRandom := ⟨1, 0, fun _ => 1⟩

/-- An alive plant about to die of underwatering: hydration 0.05, so the
post-decrement hydration is negative. -/
def dryState : ManagerState :=
  { plant := { name := "Plant", hydration := 1/20, happiness := 50,
               alive := true, death_cause := none, fruits := [] },
    economy := [], inventories := [], market := FRUIT_MARKET }

/-- An alive plant about to die of overwatering: hydration 201, so the
post-decrement hydration exceeds 200. -/
def soakedState : ManagerState :=
  { plant := { name := "Plant", hydration := 201, happiness := 50,
               alive := true, death_cause := none, fruits := [] },
    economy := [], inventories := [], market := FRUIT_MARKET }

/-- A dead plant with happiness 10 and no fruit. -/
def deadState : ManagerState :=
  { plant := { name := "Plant", hydration := 50, happiness := 10,
               alive := false, death_cause := some ("underwatering"), fruits := [] },
    economy := [], inventories := [], market := FRUIT_MARKET }

/-- A dead plant still carrying one fruit, with member 1 holding an apple. -/
def deadFruitState : ManagerState :=
  { plant := { name := "Plant", hydration := 50, happiness := 10,
               alive := false, death_cause := some ("underwatering"),
               fruits := [":banana:"] },
    economy := [], inventories := [(1, [":apple:"])], market := FRUIT_MARKET }

/-- The spec scenario for selling: member 7 holds three apples and the
market is untouched. -/
def scenario_state : ManagerState :=
  { plant := reset_plant, economy := [],
    inventories := [(7, [":apple:", ":apple:", ":apple:"])],
    market := FRUIT_MARKET }

/-- A state whose economy already tracks member 1. -/
def bankedState : ManagerState :=
  { plant := reset_plant, economy := [(1, 5)], inventories := [],
    market := FRUIT_MARKET }

section AssocLemmas

variable {α β : Type} [DecidableEq α]

lemma alookup_aset_self (l : List (α × β)) (k : α) (v : β) :
    alookup (aset l k v) k = some v := by
  induction l with
  | nil => simp [aset, alookup]
  | cons kv rest ih =>
    obtain ⟨k', v'⟩ := kv
    by_cases h : k' = k <;> simp [aset, alookup, h, ih]

lemma aset_aset (l : List (α × β)) (k : α) (v w : β) :
    aset (aset l k v) k w = aset l k w := by
  induction l with
  | nil => simp [aset]
  | cons kv rest ih =>
    obtain ⟨k', v'⟩ := kv
    by_cases h : k' = k <;> simp [aset, h, ih]

lemma aset_eq_of_alookup (l : List (α × β)) (k : α) (v : β)
    (h : alookup l k = some v) : aset l k v = l := by
  induction l with
  | nil => simp [alookup] at h
  | cons kv rest ih =>
    obtain ⟨k', v'⟩ := kv
    by_cases hk : k' = k
    · subst hk
      simp [alookup] at h
      simp [aset, h]
    · simp [alookup, hk] at h
      simp [aset, hk, ih h]

lemma alookup_append_of_none (l1 l2 : List (α × β)) (k : α)
    (h : alookup l1 k = none) : alookup (l1 ++ l2) k = alookup l2 k := by
  induction l1 with
  | nil => simp
  | cons kv rest ih =>
    obtain ⟨k', v'⟩ := kv
    by_cases hk : k' = k
    · simp [alookup, hk] at h
    · simp [alookup, hk] at h ⊢
      exact ih h

end AssocLemmas

lemma alookup_add_wealth (econ : List (Nat × ℚ)) (uid : Nat) (amt : ℚ) :
    alookup (add_wealth econ uid amt) uid
      = some ((alookup econ uid).getD 0 + amt) := by
  unfold add_wealth
  cases h : alookup econ uid with
  | some v => simp [h, alookup_aset_self]
  | none =>
    simp only [h, Option.isSome_none, Bool.false_eq_true, if_false]
    rw [alookup_append_of_none _ _ _ h]
    simp [alookup, alookup_aset_self]

lemma removeFirst_append (kept rest : List String) (f : String)
    (h : f ∉ kept) : removeFirst (kept ++ f :: rest) f = kept ++ rest := by
  induction kept with
  | nil => simp [removeFirst]
  | cons y ys ih =>
    simp only [List.mem_cons, not_or] at h
    have hy : ¬ y = f := fun hy => h.1 hy.symm
    simp only [List.cons_append, removeFirst, List.append_eq, hy, if_false,
      ih h.2]

lemma dropOcc_zero (l : List String) (x : String) : dropOcc l x 0 = l := by
  cases l <;> rfl

lemma dropOcc_cons_ne (y : String) (ys : List String) (x : String) (k : Nat)
    (h : y ≠ x) : dropOcc (y :: ys) x k = y :: dropOcc ys x k := by
  cases k with
  | zero => rw [dropOcc_zero, dropOcc_zero]
  | succ k => simp [dropOcc, h]

lemma countTok_dropOcc (x : String) :
    ∀ (l : List String) (k : Nat), k ≤ countTok x l →
      countTok x (dropOcc l x k) = countTok x l - k := by
  intro l
  induction l with
  | nil =>
    intro k hk
    simp [countTok] at hk
    simp [hk, dropOcc, countTok]
  | cons y ys ih =>
    intro k hk
    cases k with
    | zero => rw [dropOcc_zero]; omega
    | succ k =>
      by_cases hy : y = x
      · subst hy
        simp [countTok, dropOcc] at hk ⊢
        rw [ih k (by omega)]
        omega
      · simp only [countTok, hy, if_false] at hk ⊢
        rw [dropOcc_cons_ne _ _ _ _ hy]
        simp only [countTok, hy, if_false]
        rw [ih _ (by omega)]
        omega

lemma geomSum_eq (K : Nat) :
    geomSum K = Finset.sum (Finset.range K) (fun i => (4/5 : ℚ)^i) := by
  induction K with
  | zero => simp [geomSum]
  | succ k ih =>
    rw [geom_sum_succ]
    simp only [geomSum, ih]
    ring

lemma sell_loop_ge (target : String) (num : Nat) :
    ∀ (l inv : List String) (mkt : List (String × ℚ)) (n : Nat) (t : ℚ),
      num ≤ n →
      sell_loop (sell_cond target num) l inv mkt n t = ⟨inv, mkt, n, t⟩ := by
  intro l
  induction l with
  | nil => intro inv mkt n t _; rfl
  | cons f rest ih =>
    intro inv mkt n t h
    have hc : sell_cond target num f n = false := by
      simp [sell_cond]
      omega
    simp only [sell_loop, hc, Bool.false_eq_true, if_false]
    exact ih inv mkt n t h

lemma sell_loop_spec (target : String) (num : Nat) :
    ∀ (l kept : List String) (mkt : List (String × ℚ)) (p : ℚ) (n : Nat)
      (t : ℚ),
      target ∉ kept →
      alookup mkt target = some p →
      n ≤ num →
      num - n ≤ countTok target l →
      sell_loop (sell_cond target num) l (kept ++ l) mkt n t
        = ⟨kept ++ dropOcc l target (num - n),
           aset mkt target ((4/5)^(num - n) * p),
           num,
           t + p * geomSum (num - n)⟩ := by
  intro l
  induction l with
  | nil =>
    intro kept mkt p n t hkept hmkt hn hcount
    simp only [countTok] at hcount
    have hnn : n = num := by omega
    subst hnn
    simp only [Nat.sub_self, dropOcc_zero, pow_zero, one_mul, geomSum,
      mul_zero, add_zero, List.append_nil]
    rw [aset_eq_of_alookup _ _ _ hmkt]
    rfl
  | cons f rest ih =>
    intro kept mkt p n t hkept hmkt hn hcount
    by_cases hlt : n < num
    · by_cases hf : f = target
      · subst hf
        have hc : sell_cond f num f n = true := by
          simp [sell_cond]
          omega
        simp only [sell_loop, hc, if_true, hmkt, Option.getD_some]
        rw [removeFirst_append _ _ _ hkept]
        have ihres := ih kept (aset mkt f (p * (8/10))) (p * (8/10)) (n + 1)
          (t + p) hkept (alookup_aset_self _ _ _) (by omega)
          (by simp [countTok] at hcount; omega)
        rw [ihres]
        have hm : num - n = (num - (n + 1)) + 1 := by omega
        rw [hm, aset_aset]
        have h810 : (8 : ℚ)/10 = 4/5 := by norm_num
        have h1 : dropOcc (f :: rest) f (num - (n + 1) + 1)
            = dropOcc rest f (num - (n + 1)) := by
          simp [dropOcc]
        have h2 : (4/5 : ℚ)^(num - (n + 1) + 1) * p
            = (4/5)^(num - (n + 1)) * (p * (8/10)) := by
          rw [pow_succ, h810]
          ring
        have h3 : t + p * geomSum (num - (n + 1) + 1)
            = (t + p) + (p * (8/10)) * geomSum (num - (n + 1)) := by
          have hg : geomSum (num - (n + 1) + 1)
              = 1 + (4/5) * geomSum (num - (n + 1)) := rfl
          rw [hg, h810]
          ring
        rw [h1, h2, h3]
      · have hc : sell_cond target num f n = false := by
          simp [sell_cond]
          intro h
          exact absurd h hf
        simp only [sell_loop, hc, Bool.false_eq_true, if_false]
        have hre : kept ++ f :: rest = (kept ++ [f]) ++ rest := by simp
        rw [hre]
        have hkept2 : target ∉ kept ++ [f] := by
          simp [hkept]
          exact fun h => hf h.symm
        have ihres := ih (kept ++ [f]) mkt p n t hkept2 hmkt hn
          (by simp [countTok, hf] at hcount ⊢; omega)
        rw [ihres]
        rw [dropOcc_cons_ne _ _ _ _ hf]
        simp
    · have hnn : n = num := by omega
      subst hnn
      rw [sell_loop_ge _ _ _ _ _ _ _ (le_refl _)]
      simp only [Nat.sub_self, dropOcc_zero, pow_zero, one_mul, geomSum,
        mul_zero, add_zero]
      rw [aset_eq_of_alookup _ _ _ hmkt]

lemma sell_loop_spec0 (target : String) (num : Nat) (l : List String)
    (mkt : List (String × ℚ)) (p : ℚ)
    (hmkt : alookup mkt target = some p)
    (hcount : num ≤ countTok target l) :
    sell_loop (sell_cond target num) l l mkt 0 0
      = ⟨dropOcc l target num, aset mkt target ((4/5)^num * p), num,
         p * geomSum num⟩ := by
  have h := sell_loop_spec target num l [] mkt p 0 0 (List.not_mem_nil _)
    hmkt (Nat.zero_le _) (by simpa using hcount)
  simpa using h

lemma adjust_foldl_cons (noise : String → ℚ) :
    ∀ (ks : List String) (m : List (String × ℚ)) (f : String) (v : ℚ),
      f ∉ ks →
      ks.foldl (adjust_step noise) ((f, v) :: m)
        = (f, v) :: ks.foldl (adjust_step noise) m := by
  intro ks
  induction ks with
  | nil => intro m f v _; rfl
  | cons g gs ih =>
    intro m f v h
    simp only [List.mem_cons, not_or] at h
    simp only [List.foldl_cons]
    have hstep : adjust_step noise ((f, v) :: m) g
        = (f, v) :: adjust_step noise m g := by
      simp [adjust_step, alookup, aset, h.1]
    rw [hstep, ih _ _ _ h.2]

lemma adjust_market_map (noise : String → ℚ) :
    ∀ (mkt : List (String × ℚ)), (mkt.map Prod.fst).Nodup →
      adjust_market noise mkt
        = mkt.map (fun e => (e.1, adjustPrice (basePrice e.1) e.2 (noise e.1))) := by
  intro mkt
  induction mkt with
  | nil => intro _; rfl
  | cons e rest ih =>
    obtain ⟨f, p⟩ := e
    intro hnd
    simp only [List.map_cons, List.nodup_cons] at hnd
    unfold adjust_market
    simp only [List.map_cons, List.foldl_cons]
    have hstep : adjust_step noise ((f, p) :: rest) f
        = (f, adjustPrice (basePrice f) p (noise f)) :: rest := by
      simp [adjust_step, alookup, aset]
    rw [hstep, adjust_foldl_cons noise _ _ _ _ hnd.1]
    unfold adjust_market at ih
    rw [ih hnd.2]

lemma tick_plant_dead (r : TickRandom) (s : ManagerState)
    (h : s.plant.alive = false) : (tick r s).plant = s.plant := by
  simp [tick, h]

lemma tick_market (r : TickRandom) (s : ManagerState) :
    (tick r s).market = adjust_market r.noise s.market := by
  cases h : s.plant.alive <;> simp [tick, h]

lemma ticks_plant_dead (rs : List TickRandom) :
    ∀ s : ManagerState, s.plant.alive = false → (ticks rs s).plant = s.plant := by
  induction rs with
  | nil => intro s _; rfl
  | cons r rest ih =>
    intro s h
    have hp := tick_plant_dead r s h
    have := ih (tick r s) (by rw [hp, h])
    rw [ticks, this, hp]

lemma tick_alive_fields (r : TickRandom) (s : ManagerState)
    (h : s.plant.alive = true) :
    (tick r s).plant.hydration = s.plant.hydration - 1/10
    ∧ (tick r s).plant.alive
        = (if s.plant.hydration - 1/10 < 0 then false
           else if s.plant.hydration - 1/10 > 200 then false else true)
    ∧ (tick r s).plant.death_cause
        = (if s.plant.hydration - 1/10 < 0 then some ("underwatering")
           else if s.plant.hydration - 1/10 > 200 then some ("overwatering")
           else s.plant.death_cause)
    ∧ (tick r s).plant.happiness = s.plant.happiness * (9925/10000)
    ∧ (tick r s).plant.fruits
        = (if s.plant.fruits.length < 20
              ∧ r.fruitRoll ≤ s.plant.happiness * (9925/10000) / 400
           then s.plant.fruits
             ++ [fruitCatalog.getD (r.fruitChoice % fruitCatalog.length) ""]
           else s.plant.fruits) := by
  refine ⟨?_, ?_, ?_, ?_, ?_⟩ <;> simp [tick, h]

lemma tick_happiness (r : TickRandom) (s : ManagerState) :
    (tick r s).plant.happiness
      = (if s.plant.alive then s.plant.happiness * (9925/10000)
         else s.plant.happiness) := by
  cases h : s.plant.alive <;> simp [tick, h]

lemma sell_plant (aid : Nat) (target : String) (num : Nat) (s : ManagerState) :
    (sell aid target num s).plant = s.plant := by
  simp only [sell]
  split <;> rfl

lemma sell_all_plant (aid : Nat) (s : ManagerState) :
    (sell_all aid s).plant = s.plant := by
  simp only [sell_all]
  split <;> rfl

lemma harvest_plant_happiness (aid : Nat) (s : ManagerState) :
    (harvest aid s).plant.happiness = s.plant.happiness
    ∧ (harvest aid s).plant.hydration = s.plant.hydration
    ∧ (harvest aid s).plant.alive = s.plant.alive := by
  simp only [harvest]
  split <;> exact ⟨rfl, rfl, rfl⟩

lemma step_happiness_eq (op : Op) (s : ManagerState)
    (hpet : op ≠ Op.pet) (hres : op ≠ Op.respawn)
    (htick : ∀ r, op ≠ Op.tick r) :
    (step op s).plant.happiness = s.plant.happiness := by
  cases op with
  | tick r => exact absurd rfl (htick r)
  | pet => exact absurd rfl hpet
  | respawn => exact absurd rfl hres
  | water => cases h : s.plant.alive <;> simp [step, water, h]
  | set_name n => rfl
  | harvest aid => exact (harvest_plant_happiness aid s).1
  | check_inventory aid => rfl
  | check_wealth aid =>
    cases h : (alookup s.economy aid).isSome <;> simp [step, check_wealth, h]
  | check_market => rfl
  | sell aid target num => exact congrArg PlantState.happiness (sell_plant aid target num s)
  | sell_all aid => exact congrArg PlantState.happiness (sell_all_plant aid s)
  | summary => rfl

lemma step_happiness_le (op : Op) (s : ManagerState)
    (h0 : 0 ≤ s.plant.happiness)
    (hpet : op ≠ Op.pet) (hres : op ≠ Op.respawn) :
    (step op s).plant.happiness ≤ s.plant.happiness := by
  cases op with
  | tick r =>
    show (tick r s).plant.happiness ≤ s.plant.happiness
    rw [tick_happiness]
    split
    · nlinarith
    · exact le_refl _
  | pet => exact absurd rfl hpet
  | respawn => exact absurd rfl hres
  | water =>
    exact le_of_eq (step_happiness_eq Op.water s
      (fun h => Op.noConfusion h) (fun h => Op.noConfusion h)
      (fun r h => Op.noConfusion h))
  | set_name n => exact le_refl _
  | harvest aid => exact le_of_eq (harvest_plant_happiness aid s).1
  | check_inventory aid => exact le_refl _
  | check_wealth aid =>
    exact le_of_eq (step_happiness_eq (Op.check_wealth aid) s
      (fun h => Op.noConfusion h) (fun h => Op.noConfusion h)
      (fun r h => Op.noConfusion h))
  | check_market => exact le_refl _
  | sell aid target num =>
    exact le_of_eq (congrArg PlantState.happiness (sell_plant aid target num s))
  | sell_all aid =>
    exact le_of_eq (congrArg PlantState.happiness (sell_all_plant aid s))
  | summary => exact le_refl _

lemma step_happiness_nonneg (op : Op) (s : ManagerState)
    (h0 : 0 ≤ s.plant.happiness) : 0 ≤ (step op s).plant.happiness := by
  cases op with
  | tick r =>
    show 0 ≤ (tick r s).plant.happiness
    rw [tick_happiness]
    split
    · nlinarith
    · exact h0
  | pet =>
    cases h : s.plant.alive with
    | false => simpa [step, pet, h] using h0
    | true =>
      have hh : (step Op.pet s).plant.happiness
          = min (s.plant.happiness + 10) 100 := by
        simp [step, pet, h]
      rw [hh]
      exact le_min (by linarith) (by norm_num)
  | respawn =>
    cases h : s.plant.alive with
    | false =>
      have hh : (step Op.respawn s).plant.happiness = 50 := by
        simp [step, respawn, h, reset_plant]
      rw [hh]
      norm_num
    | true => simpa [step, respawn, h] using h0
  | water => cases h : s.plant.alive <;> simp [step, water, h] <;> exact h0
  | set_name n => exact h0
  | harvest aid =>
    show 0 ≤ (harvest aid s).plant.happiness
    rw [(harvest_plant_happiness aid s).1]; exact h0
  | check_inventory aid => exact h0
  | check_wealth aid =>
    cases h : (alookup s.economy aid).isSome <;> simp [step, check_wealth, h]
      <;> exact h0
  | check_market => exact h0
  | sell aid target num =>
    show 0 ≤ (sell aid target num s).plant.happiness
    rw [congrArg PlantState.happiness (sell_plant aid target num s)]; exact h0
  | sell_all aid =>
    show 0 ≤ (sell_all aid s).plant.happiness
    rw [congrArg PlantState.happiness (sell_all_plant aid s)]; exact h0
  | summary => exact h0

lemma step_happiness_le_100 (op : Op) (s : ManagerState)
    (h0 : 0 ≤ s.plant.happiness) (h1 : s.plant.happiness ≤ 100) :
    (step op s).plant.happiness ≤ 100 := by
  cases op with
  | tick r =>
    show (tick r s).plant.happiness ≤ 100
    rw [tick_happiness]
    split
    · nlinarith
    · exact h1
  | pet =>
    cases h : s.plant.alive with
    | false => simpa [step, pet, h] using h1
    | true =>
      have hh : (step Op.pet s).plant.happiness
          = min (s.plant.happiness + 10) 100 := by
        simp [step, pet, h]
      rw [hh]
      exact min_le_right _ _
  | respawn =>
    cases h : s.plant.alive with
    | false =>
      have hh : (step Op.respawn s).plant.happiness = 50 := by
        simp [step, respawn, h, reset_plant]
      rw [hh]
      norm_num
    | true => simpa [step, respawn, h] using h1
  | water => cases h : s.plant.alive <;> simp [step, water, h] <;> exact h1
  | set_name n => exact h1
  | harvest aid =>
    show (harvest aid s).plant.happiness ≤ 100
    rw [(harvest_plant_happiness aid s).1]; exact h1
  | check_inventory aid => exact h1
  | check_wealth aid =>
    cases h : (alookup s.economy aid).isSome <;> simp [step, check_wealth, h]
      <;> exact h1
  | check_market => exact h1
  | sell aid target num =>
    show (sell aid target num s).plant.happiness ≤ 100
    rw [congrArg PlantState.happiness (sell_plant aid target num s)]; exact h1
  | sell_all aid =>
    show (sell_all aid s).plant.happiness ≤ 100
    rw [congrArg PlantState.happiness (sell_all_plant aid s)]; exact h1
  | summary => exact h1

lemma steps_happiness_bounds (ops : List Op) :
    ∀ s : ManagerState, 0 ≤ s.plant.happiness → s.plant.happiness ≤ 100 →
      0 ≤ (steps ops s).plant.happiness
      ∧ (steps ops s).plant.happiness ≤ 100 := by
  induction ops with
  | nil => intro s h0 h1; exact ⟨h0, h1⟩
  | cons op rest ih =>
    intro s h0 h1
    exact ih (step op s) (step_happiness_nonneg op s h0)
      (step_happiness_le_100 op s h0 h1)

lemma steps_happiness_le (ops : List Op) :
    ∀ s : ManagerState, 0 ≤ s.plant.happiness →
      (∀ op ∈ ops, op ≠ Op.pet ∧ op ≠ Op.respawn) →
      (steps ops s).plant.happiness ≤ s.plant.happiness := by
  induction ops with
  | nil => intro s _ _; exact le_refl _
  | cons op rest ih =>
    intro s h0 hops
    have hop := hops op (List.mem_cons_self _ _)
    have h1 := step_happiness_le op s h0 hop.1 hop.2
    have h2 := ih (step op s) (step_happiness_nonneg op s h0)
      (fun o ho => hops o (List.mem_cons_of_mem _ ho))
    exact le_trans h2 h1

lemma mood_six (h : ℚ) (h0 : 0 ≤ h) (h1 : h ≤ 100) :
    mood h = some ("Depressed") ∨ mood h = some ("Sad")
    ∨ mood h = some ("Wilting") ∨ mood h = some ("Mediocre")
    ∨ mood h = some ("Happy") ∨ mood h = some ("Joyous") := by
  unfold mood
  split_ifs with c1 c2 c3 c4 c5 c6
  · exact Or.inl rfl
  · exact Or.inr (Or.inl rfl)
  · exact Or.inr (Or.inr (Or.inl rfl))
  · exact Or.inr (Or.inr (Or.inr (Or.inl rfl)))
  · exact Or.inr (Or.inr (Or.inr (Or.inr (Or.inl rfl))))
  · exact Or.inr (Or.inr (Or.inr (Or.inr (Or.inr rfl))))
  · exfalso
    push_neg at c1 c2 c3 c4 c5 c6
    have e1 : (0 : ℚ) < h := by linarith
    have e2 := c2 e1
    have e3 := c3 e2
    have e4 := c4 e3
    have e5 := c5 e4
    have e6 := c6 e5
    linarith

lemma perm_insertDesc (x : Nat × ℚ) (l : List (Nat × ℚ)) :
    (insertDesc x l).Perm (x :: l) := by
  induction l with
  | nil => exact List.Perm.refl _
  | cons y ys ih =>
    unfold insertDesc
    split
    · exact List.Perm.refl _
    · exact List.Perm.trans (List.Perm.cons y ih) (List.Perm.swap x y ys)

lemma sorted_insertDesc (x : Nat × ℚ) (l : List (Nat × ℚ))
    (h : List.Sorted (fun a b : Nat × ℚ => b.2 ≤ a.2) l) :
    List.Sorted (fun a b : Nat × ℚ => b.2 ≤ a.2) (insertDesc x l) := by
  induction l with
  | nil => simp [insertDesc]
  | cons y ys ih =>
    rw [List.sorted_cons] at h
    unfold insertDesc
    by_cases hxy : y.2 ≤ x.2
    · rw [if_pos hxy, List.sorted_cons]
      refine ⟨?_, ?_⟩
      · intro z hz
        rcases List.mem_cons.mp hz with hz | hz
        · rw [hz]; exact hxy
        · exact le_trans (h.1 z hz) hxy
      · rw [List.sorted_cons]; exact h
    · rw [if_neg hxy, List.sorted_cons]
      refine ⟨?_, ih h.2⟩
      intro z hz
      rcases List.mem_cons.mp ((perm_insertDesc x ys).mem_iff.mp hz)
        with hz2 | hz2
      · rw [hz2]; exact le_of_not_le hxy
      · exact h.1 z hz2

lemma sorted_leaderboard (econ : List (Nat × ℚ)) :
    List.Sorted (fun a b : Nat × ℚ => b.2 ≤ a.2) (leaderboard econ) := by
  induction econ with
  | nil => simp [leaderboard]
  | cons e rest ih => exact sorted_insertDesc e _ ih

lemma perm_leaderboard (econ : List (Nat × ℚ)) :
    (leaderboard econ).Perm econ := by
  induction econ with
  | nil => exact List.Perm.refl _
  | cons e rest ih =>
    exact List.Perm.trans (perm_insertDesc e (leaderboard rest))
      (List.Perm.cons e ih)

lemma check_wealth_plant (aid : Nat) (s : ManagerState) :
    (check_wealth aid s).plant = s.plant := by
  unfold check_wealth
  split <;> rfl

lemma step_dead_frozen (op : Op) (s : ManagerState)
    (hdead : s.plant.alive = false) (hres : op ≠ Op.respawn) :
    (step op s).plant.hydration = s.plant.hydration
    ∧ (step op s).plant.happiness = s.plant.happiness
    ∧ (step op s).plant.alive = false := by
  cases op with
  | tick r =>
    have h := tick_plant_dead r s hdead
    show (tick r s).plant.hydration = _ ∧ (tick r s).plant.happiness = _
      ∧ (tick r s).plant.alive = false
    rw [h]
    exact ⟨rfl, rfl, hdead⟩
  | respawn => exact absurd rfl hres
  | water =>
    have h : step Op.water s = s := by simp [step, water, hdead]
    rw [h]
    exact ⟨rfl, rfl, hdead⟩
  | pet =>
    have h : step Op.pet s = s := by simp [step, pet, hdead]
    rw [h]
    exact ⟨rfl, rfl, hdead⟩
  | set_name n => exact ⟨rfl, rfl, hdead⟩
  | harvest aid =>
    obtain ⟨hh, hy, ha⟩ := harvest_plant_happiness aid s
    refine ⟨hy, hh, ?_⟩
    show (harvest aid s).plant.alive = false
    rw [ha]
    exact hdead
  | check_inventory aid => exact ⟨rfl, rfl, hdead⟩
  | check_wealth aid =>
    have h := check_wealth_plant aid s
    show (check_wealth aid s).plant.hydration = _
      ∧ (check_wealth aid s).plant.happiness = _
      ∧ (check_wealth aid s).plant.alive = false
    rw [h]
    exact ⟨rfl, rfl, hdead⟩
  | check_market => exact ⟨rfl, rfl, hdead⟩
  | sell aid target num =>
    have h := sell_plant aid target num s
    show (sell aid target num s).plant.hydration = _
      ∧ (sell aid target num s).plant.happiness = _
      ∧ (sell aid target num s).plant.alive = false
    rw [h]
    exact ⟨rfl, rfl, hdead⟩
  | sell_all aid =>
    have h := sell_all_plant aid s
    show (sell_all aid s).plant.hydration = _
      ∧ (sell_all aid s).plant.happiness = _
      ∧ (sell_all aid s).plant.alive = false
    rw [h]
    exact ⟨rfl, rfl, hdead⟩
  | summary => exact ⟨rfl, rfl, hdead⟩

lemma step_fruits_frozen (op : Op) (s : ManagerState)
    (hdead : s.plant.alive = false) (hres : op ≠ Op.respawn)
    (hharv : ∀ a, op ≠ Op.harvest a) :
    (step op s).plant.fruits = s.plant.fruits := by
  cases op with
  | tick r =>
    have h := tick_plant_dead r s hdead
    show (tick r s).plant.fruits = _
    rw [h]
  | respawn => exact absurd rfl hres
  | harvest aid => exact absurd rfl (hharv aid)
  | water =>
    have h : step Op.water s = s := by simp [step, water, hdead]
    rw [h]
  | pet =>
    have h : step Op.pet s = s := by simp [step, pet, hdead]
    rw [h]
  | set_name n => rfl
  | check_inventory aid => rfl
  | check_wealth aid =>
    show (check_wealth aid s).plant.fruits = _
    rw [check_wealth_plant aid s]
  | check_market => rfl
  | sell aid target num =>
    show (sell aid target num s).plant.fruits = _
    rw [sell_plant aid target num s]
  | sell_all aid =>
    show (sell_all aid s).plant.fruits = _
    rw [sell_all_plant aid s]
  | summary => rfl

/-- C1, counterexample: the claim says a death-triggering tick leaves
happiness unchanged apart from the death transition, but on the alive state
with hydration 0.05 the tick both kills the plant and decays happiness. -/
theorem C1_counterexample :
    dryState.plant.alive = true
    ∧ dryState.plant.hydration - 1/10 < 0
    ∧ (tick rUnit dryState).plant.alive = false
    ∧ (tick rUnit dryState).plant.happiness ≠ dryState.plant.happiness := by
  refine ⟨rfl, by norm_num [dryState], ?_, ?_⟩ <;>
    norm_num [dryState, rUnit, tick]

/-- C1, amended: when the death threshold check fires after the hydration
decrement, the plant is set DEAD with the matching death_cause, but the
remaining per-tick steps are not skipped: happiness is still multiplied by
0.9925 and fruit generation still runs (with the decayed happiness) on that
same tick. -/
theorem C1_amended_death_tick (s : ManagerState) (r : TickRandom)
    (hal : s.plant.alive = true)
    (hthr : s.plant.hydration - 1/10 > 200 ∨ s.plant.hydration - 1/10 < 0) :
    (tick r s).plant.alive = false
    ∧ (s.plant.hydration - 1/10 > 200 →
        (tick r s).plant.death_cause = some ("overwatering"))
    ∧ (s.plant.hydration - 1/10 < 0 →
        (tick r s).plant.death_cause = some ("underwatering"))
    ∧ (tick r s).plant.happiness = s.plant.happiness * (9925/10000)
    ∧ (tick r s).plant.fruits
        = (if s.plant.fruits.length < 20
              ∧ r.fruitRoll ≤ s.plant.happiness * (9925/10000) / 400
           then s.plant.fruits
             ++ [fruitCatalog.getD (r.fruitChoice % fruitCatalog.length) ""]
           else s.plant.fruits) := by
  obtain ⟨hhyd, halive, hcause, hhap, hfr⟩ := tick_alive_fields r s hal
  refine ⟨?_, ?_, ?_, hhap, hfr⟩
  · rw [halive]
    rcases hthr with h | h
    · rw [if_neg (by linarith), if_pos h]
    · rw [if_pos h]
  · intro h
    rw [hcause, if_neg (by linarith), if_pos h]
  · intro h
    rw [hcause, if_pos h]

/-- C1, witness: the amended statement evaluated on the dry state. -/
theorem C1_witness :
    (tick rUnit dryState).plant.alive = false
    ∧ (tick rUnit dryState).plant.happiness
        = dryState.plant.happiness * (9925/10000) := by
  have h := C1_amended_death_tick dryState rUnit rfl
    (Or.inr (by norm_num [dryState]))
  exact ⟨h.1, h.2.2.2.1⟩

/-- C2, counterexample: the claim says the fruit list of a dead plant is
frozen and harvest on a dead plant is a no-op, but `__harvest` never checks
`alive`: on a dead plant holding a banana, harvest moves it into the
caller's inventory and clears the plant's fruit list. -/
theorem C2_counterexample :
    deadFruitState.plant.alive = false
    ∧ deadFruitState.plant.fruits ≠ []
    ∧ (step (Op.harvest 1) deadFruitState).plant.fruits = []
    ∧ alookup (step (Op.harvest 1) deadFruitState).inventories 1
        = some [":apple:", ":banana:"] := by
  refine ⟨rfl, by simp [deadFruitState], ?_, ?_⟩ <;>
    norm_num [deadFruitState, step, harvest, ensure_inventory, alookup, aset]

/-- C2, amended: while the plant is not alive, hydration and happiness are
frozen by every operation other than respawn (and the plant stays dead),
and the fruit list is frozen by every operation other than respawn and
harvest; harvest ignores the life state and still moves the whole fruit
list into the caller's inventory and clears it. -/
theorem C2_amended_dead_frozen (s : ManagerState) (op : Op) (a : Nat)
    (inv : List String) (hdead : s.plant.alive = false) :
    (op ≠ Op.respawn →
      (step op s).plant.hydration = s.plant.hydration
      ∧ (step op s).plant.happiness = s.plant.happiness
      ∧ (step op s).plant.alive = false)
    ∧ (op ≠ Op.respawn → (∀ b, op ≠ Op.harvest b) →
      (step op s).plant.fruits = s.plant.fruits)
    ∧ (alookup s.inventories a = some inv → s.plant.fruits ≠ [] →
      (step (Op.harvest a) s).plant.fruits = []
      ∧ alookup (step (Op.harvest a) s).inventories a
          = some (inv ++ s.plant.fruits)) := by
  refine ⟨fun hres => step_dead_frozen op s hdead hres,
    fun hres hharv => step_fruits_frozen op s hdead hres hharv, ?_⟩
  intro hinv hfr
  have hens : ensure_inventory a s.inventories = s.inventories := by
    simp [ensure_inventory, hinv]
  have hlen : 0 < s.plant.fruits.length := List.length_pos.mpr hfr
  constructor
  · show (harvest a s).plant.fruits = []
    simp only [harvest, hens, hinv, Option.getD_some, if_pos hlen]
  · show alookup (harvest a s).inventories a = _
    simp only [harvest, hens, hinv, Option.getD_some, if_pos hlen]
    exact alookup_aset_self _ _ _

/-- C2, witness: the amended statement evaluated on the dead plant holding
a banana, for the water command and a harvest by member 1. -/
theorem C2_witness :
    (step Op.water deadFruitState).plant.hydration
        = deadFruitState.plant.hydration
    ∧ (step Op.water deadFruitState).plant.happiness
        = deadFruitState.plant.happiness
    ∧ (step (Op.harvest 1) deadFruitState).plant.fruits = []
    ∧ alookup (step (Op.harvest 1) deadFruitState).inventories 1
        = some ([":apple:"] ++ deadFruitState.plant.fruits) := by
  have h := C2_amended_dead_frozen deadFruitState Op.water 1 [":apple:"] rfl
  have h1 := h.1 (fun hh => Op.noConfusion hh)
  have h3 := h.2.2 rfl (by simp [deadFruitState])
  exact ⟨h1.1, h1.2.1, h3.1, h3.2⟩

/-- C3, counterexample: the claim says the bank-balance query never mutates
the economy, including its key set, but `__check_wealth` initializes the
caller's account: querying from a fresh state adds the key. -/
theorem C3_counterexample :
    alookup initial_state.economy 1 = none
    ∧ (step (Op.check_wealth 1) initial_state).economy
        ≠ initial_state.economy := by
  constructor
  · rfl
  · simp [initial_state, step, check_wealth, alookup]

/-- C3, amended: the market query is state-free, and the bank query is
state-free except for lazily initializing the caller's account at balance 0
when it is absent; when the caller already has an account the bank query
changes nothing. -/
theorem C3_amended_queries (s : ManagerState) (aid : Nat) :
    step Op.check_market s = s
    ∧ step Op.summary s = s
    ∧ ((alookup s.economy aid).isSome = true →
        step (Op.check_wealth aid) s = s)
    ∧ (alookup s.economy aid = none →
        (step (Op.check_wealth aid) s).economy = s.economy ++ [(aid, 0)]
        ∧ (step (Op.check_wealth aid) s).plant = s.plant
        ∧ (step (Op.check_wealth aid) s).inventories = s.inventories
        ∧ (step (Op.check_wealth aid) s).market = s.market) := by
  refine ⟨rfl, rfl, ?_, ?_⟩
  · intro h
    show check_wealth aid s = s
    simp [check_wealth, h]
  · intro h
    have hs : step (Op.check_wealth aid) s
        = { s with economy := s.economy ++ [(aid, 0)] } := by
      show check_wealth aid s = _
      simp [check_wealth, h]
    rw [hs]
    exact ⟨rfl, rfl, rfl, rfl⟩

/-- C3, witness: the amended statement evaluated on a fresh state and on a
state whose economy tracks member 1 only. -/
theorem C3_witness :
    step Op.check_market initial_state = initial_state
    ∧ step (Op.check_wealth 1) bankedState = bankedState
    ∧ (step (Op.check_wealth 2) bankedState).economy
        = bankedState.economy ++ [(2, 0)] :=
  ⟨(C3_amended_queries initial_state 1).1,
   (C3_amended_queries bankedState 1).2.2.1 rfl,
   ((C3_amended_queries bankedState 2).2.2.2 rfl).1⟩

/-- C4: selling K units of a fruit kind from an inventory holding at least K
tokens of that kind at positive market price p removes exactly the first K
occurrences of the kind, credits per-unit revenues p, 0.8p, 0.8^2 p, ...
(strictly decreasing), adds their sum to the caller's balance, and leaves
the kind's market price at 0.8^K times p; in particular, selling 2 of 3
apples at untouched base price 1.0 yields revenue 1.8, one apple remaining,
and apple price 0.64. -/
theorem C4_sell_spec (s : ManagerState) (aid : Nat) (inv : List String)
    (target : String) (p : ℚ) (K : Nat)
    (hinv : alookup s.inventories aid = some inv)
    (hmkt : alookup s.market target = some p)
    (hK : K ≤ countTok target inv) (hKpos : 0 < K) (hp : 0 < p) :
    alookup (step (Op.sell aid target K) s).inventories aid
        = some (dropOcc inv target K)
    ∧ countTok target (dropOcc inv target K) = countTok target inv - K
    ∧ alookup (step (Op.sell aid target K) s).market target
        = some ((4/5)^K * p)
    ∧ alookup (step (Op.sell aid target K) s).economy aid
        = some ((alookup s.economy aid).getD 0 + p * geomSum K)
    ∧ p * geomSum K
        = Finset.sum (Finset.range K) (fun i => (4/5 : ℚ)^i * p)
    ∧ (∀ i : Nat, i + 1 < K → (4/5 : ℚ)^(i+1) * p < (4/5)^i * p)
    ∧ alookup (step (Op.sell 7 (":apple:") 2) scenario_state).inventories 7
        = some [":apple:"]
    ∧ alookup (step (Op.sell 7 (":apple:") 2) scenario_state).market (":apple:")
        = some (64/100)
    ∧ alookup (step (Op.sell 7 (":apple:") 2) scenario_state).economy 7
        = some (18/10) := by
  have hens : ensure_inventory aid s.inventories = s.inventories := by
    simp [ensure_inventory, hinv]
  have hloop := sell_loop_spec0 target K inv s.market p hmkt hK
  have hstep : step (Op.sell aid target K) s
      = { s with
          inventories := aset s.inventories aid (dropOcc inv target K),
          market := aset s.market target ((4/5)^K * p),
          economy := add_wealth s.economy aid (p * geomSum K) } := by
    show sell aid target K s = _
    simp only [sell, hens, hinv, Option.getD_some, hloop]
    rw [if_neg hKpos.ne']
  refine ⟨?_, countTok_dropOcc target inv K hK, ?_, ?_, ?_, ?_, ?_, ?_, ?_⟩
  · rw [hstep]
    exact alookup_aset_self _ _ _
  · rw [hstep]
    exact alookup_aset_self _ _ _
  · rw [hstep]
    exact alookup_add_wealth _ _ _
  · rw [geomSum_eq, Finset.mul_sum]
    exact Finset.sum_congr rfl (fun i _ => mul_comm _ _)
  · intro i hi
    have h4 : (0 : ℚ) < (4/5)^i := pow_pos (by norm_num) i
    rw [pow_succ]
    nlinarith [mul_pos h4 hp]
  · norm_num [scenario_state, reset_plant, step, sell, ensure_inventory,
      alookup, aset, sell_loop, sell_cond, add_wealth, removeFirst,
      FRUIT_MARKET]
  · norm_num [scenario_state, reset_plant, step, sell, ensure_inventory,
      alookup, aset, sell_loop, sell_cond, add_wealth, removeFirst,
      FRUIT_MARKET]
  · norm_num [scenario_state, reset_plant, step, sell, ensure_inventory,
      alookup, aset, sell_loop, sell_cond, add_wealth, removeFirst,
      FRUIT_MARKET]

/-- C4, witness: the sell specification evaluated on the apple scenario. -/
theorem C4_witness :
    alookup (step (Op.sell 7 (":apple:") 2) scenario_state).market (":apple:")
        = some ((4/5)^2 * 1)
    ∧ alookup (step (Op.sell 7 (":apple:") 2) scenario_state).economy 7
        = some ((alookup scenario_state.economy 7).getD 0 + 1 * geomSum 2) := by
  have h := C4_sell_spec scenario_state 7 [":apple:", ":apple:", ":apple:"]
    (":apple:") 1 2 rfl rfl (by norm_num [countTok]) (by norm_num)
    (by norm_num)
  exact ⟨h.2.2.1, h.2.2.2.1⟩

/-- C5: while alive, a tick decreases hydration by exactly 0.1; the
ALIVE-to-DEAD transition fires exactly at a tick whose post-decrement
hydration exceeds 200 (death_cause "overwatering") or drops below 0
(death_cause "underwatering"); once dead, no sequence of further ticks
changes hydration. -/
theorem C5_hydration_spec (s : ManagerState) (r : TickRandom)
    (rs : List TickRandom) :
    (s.plant.alive = true → ¬(s.plant.hydration - 1/10 > 200) →
      ¬(s.plant.hydration - 1/10 < 0) →
      (tick r s).plant.hydration = s.plant.hydration - 1/10
      ∧ (tick r s).plant.alive = true)
    ∧ (s.plant.alive = true → s.plant.hydration - 1/10 > 200 →
      (tick r s).plant.hydration = s.plant.hydration - 1/10
      ∧ (tick r s).plant.alive = false
      ∧ (tick r s).plant.death_cause = some ("overwatering"))
    ∧ (s.plant.alive = true → s.plant.hydration - 1/10 < 0 →
      (tick r s).plant.hydration = s.plant.hydration - 1/10
      ∧ (tick r s).plant.alive = false
      ∧ (tick r s).plant.death_cause = some ("underwatering"))
    ∧ (s.plant.alive = false →
      (ticks rs s).plant.hydration = s.plant.hydration
      ∧ (ticks rs s).plant.alive = false) := by
  refine ⟨?_, ?_, ?_, ?_⟩
  · intro hal hover hunder
    obtain ⟨hhyd, halive, _, _, _⟩ := tick_alive_fields r s hal
    refine ⟨hhyd, ?_⟩
    rw [halive, if_neg hunder, if_neg hover]
  · intro hal hover
    obtain ⟨hhyd, halive, hcause, _, _⟩ := tick_alive_fields r s hal
    refine ⟨hhyd, ?_, ?_⟩
    · rw [halive, if_neg (by linarith), if_pos hover]
    · rw [hcause, if_neg (by linarith), if_pos hover]
  · intro hal hunder
    obtain ⟨hhyd, halive, hcause, _, _⟩ := tick_alive_fields r s hal
    refine ⟨hhyd, ?_, ?_⟩
    · rw [halive, if_pos hunder]
    · rw [hcause, if_pos hunder]
  · intro hdead
    have h := ticks_plant_dead rs s hdead
    rw [h]
    exact ⟨rfl, hdead⟩

/-- C5, witness: the hydration specification evaluated on a fresh alive
state, on the two near-death states, and on a dead state. -/
theorem C5_witness :
    (tick rUnit initial_state).plant.hydration
        = initial_state.plant.hydration - 1/10
    ∧ (tick rUnit soakedState).plant.death_cause = some ("overwatering")
    ∧ (tick rUnit dryState).plant.death_cause = some ("underwatering")
    ∧ (ticks [rUnit] deadState).plant.hydration
        = deadState.plant.hydration := by
  refine ⟨?_, ?_, ?_, ?_⟩
  · exact ((C5_hydration_spec initial_state rUnit []).1 rfl
      (by norm_num [initial_state, reset_plant])
      (by norm_num [initial_state, reset_plant])).1
  · exact ((C5_hydration_spec soakedState rUnit []).2.1 rfl
      (by norm_num [soakedState])).2.2
  · exact ((C5_hydration_spec dryState rUnit []).2.2.1 rfl
      (by norm_num [dryState])).2.2
  · exact ((C5_hydration_spec deadState rUnit [rUnit]).2.2.2 rfl).1

/-- C6: respawning a dead plant resets exactly the plant fields to their
initial defaults and leaves the economy, the inventories and the market
unchanged; respawning an alive plant is rejected and changes nothing. -/
theorem C6_respawn_spec (s : ManagerState) :
    (s.plant.alive = false →
      step Op.respawn s = { s with plant := reset_plant }
      ∧ (step Op.respawn s).plant.name = "Plant"
      ∧ (step Op.respawn s).plant.hydration = 100
      ∧ (step Op.respawn s).plant.happiness = 50
      ∧ (step Op.respawn s).plant.alive = true
      ∧ (step Op.respawn s).plant.death_cause = none
      ∧ (step Op.respawn s).plant.fruits = []
      ∧ (step Op.respawn s).economy = s.economy
      ∧ (step Op.respawn s).inventories = s.inventories
      ∧ (step Op.respawn s).market = s.market)
    ∧ (s.plant.alive = true → step Op.respawn s = s) := by
  constructor
  · intro hdead
    have hs : step Op.respawn s = { s with plant := reset_plant } := by
      show respawn s = _
      simp [respawn, hdead]
    rw [hs]
    exact ⟨rfl, rfl, rfl, rfl, rfl, rfl, rfl, rfl, rfl, rfl⟩
  · intro hal
    show respawn s = s
    simp [respawn, hal]

/-- C6, witness: respawn evaluated on a dead state and on a fresh alive
state. -/
theorem C6_witness :
    step Op.respawn deadState = { deadState with plant := reset_plant }
    ∧ step Op.respawn initial_state = initial_state :=
  ⟨((C6_respawn_spec deadState).1 rfl).1,
   (C6_respawn_spec initial_state).2 rfl⟩

/-- C7, counterexample: the claim's repricing rule (nudge up when below
base, then multiply by the noise factor) diverges from the code when the
price exceeds twice the base: at apple price 3 with noise 1 the code also
nudges the price down by 0.01, giving 2.99 instead of the claimed 3. -/
theorem C7_counterexample :
    adjust_market (fun _ => 1) [(":apple:", 3)] = [(":apple:", 299/100)]
    ∧ adjustPriceClaim (basePrice (":apple:")) 3 1 = 3
    ∧ ((299 : ℚ)/100) ≠ 3 := by
  refine ⟨?_, ?_, by norm_num⟩
  · norm_num [adjust_market, adjust_step, adjustPrice, basePrice, alookup,
      aset, FRUIT_MARKET]
  · norm_num [adjustPriceClaim, basePrice, alookup, FRUIT_MARKET]

/-- C7, amended: every tick reprices the market whether the plant is alive
or dead, each kind independently: when the price is below its base it is
first incremented by 0.01, when the (possibly incremented) price exceeds
twice its base it is then decremented by 0.01, and the result is multiplied
by that kind's random factor (drawn from [0.98, 1.0225], modelled here as
an arbitrary per-kind parameter). -/
theorem C7_amended_repricing (s : ManagerState) (r : TickRandom)
    (noise : String → ℚ) (mkt : List (String × ℚ))
    (hnd : (mkt.map Prod.fst).Nodup) :
    (tick r s).market = adjust_market r.noise s.market
    ∧ adjust_market noise mkt
        = mkt.map (fun e => (e.1, adjustPrice (basePrice e.1) e.2 (noise e.1))) :=
  ⟨tick_market r s, adjust_market_map noise mkt hnd⟩

/-- C7, witness: the repricing statement evaluated on a dead state and on a
one-entry market. -/
theorem C7_witness :
    (tick rUnit deadState).market = adjust_market rUnit.noise deadState.market
    ∧ adjust_market (fun _ => 1) [(":apple:", 2)]
        = [(":apple:", adjustPrice (basePrice (":apple:")) 2 1)] := by
  have h := C7_amended_repricing deadState rUnit (fun _ => 1)
    [(":apple:", 2)] (by simp)
  exact ⟨h.1, h.2⟩

/-- C8, counterexample: the claim says no command other than pet ever
increases happiness, but respawn (which is not pet) raises the dead plant's
happiness from 10 back to the initial 50. -/
theorem C8_counterexample :
    Op.respawn ≠ Op.pet
    ∧ deadState.plant.happiness = 10
    ∧ (steps [Op.respawn] deadState).plant.happiness = 50 := by
  refine ⟨fun h => Op.noConfusion h, rfl, ?_⟩
  norm_num [steps, step, respawn, deadState, reset_plant]

/-- C8, amended: for every sequence of ticks and commands containing no pet
and no respawn, happiness is monotonically non-increasing from any state
with non-negative happiness; while alive, each tick multiplies happiness by
exactly the decay factor 0.9925. -/
theorem C8_amended_monotone (s : ManagerState) (ops : List Op)
    (h0 : 0 ≤ s.plant.happiness)
    (hops : ∀ op ∈ ops, op ≠ Op.pet ∧ op ≠ Op.respawn) :
    (steps ops s).plant.happiness ≤ s.plant.happiness
    ∧ (∀ r, s.plant.alive = true →
        (tick r s).plant.happiness = s.plant.happiness * (9925/10000)) := by
  refine ⟨steps_happiness_le ops s h0 hops, ?_⟩
  intro r hal
  rw [tick_happiness, if_pos hal]

/-- C8, witness: the monotonicity statement evaluated on a fresh state for
the sequence water-then-tick. -/
theorem C8_witness :
    (steps [Op.water, Op.tick rUnit] initial_state).plant.happiness
        ≤ initial_state.plant.happiness
    ∧ (tick rUnit initial_state).plant.happiness
        = initial_state.plant.happiness * (9925/10000) := by
  have hops : ∀ op ∈ [Op.water, Op.tick rUnit],
      op ≠ Op.pet ∧ op ≠ Op.respawn := by
    intro op hop
    rcases List.mem_cons.mp hop with h1 | h1
    · rw [h1]
      exact ⟨fun hh => Op.noConfusion hh, fun hh => Op.noConfusion hh⟩
    · rcases List.mem_cons.mp h1 with h2 | h2
      · rw [h2]
        exact ⟨fun hh => Op.noConfusion hh, fun hh => Op.noConfusion hh⟩
      · exact absurd h2 (List.not_mem_nil op)
  have h := C8_amended_monotone initial_state [Op.water, Op.tick rUnit]
    (by norm_num [initial_state, reset_plant]) hops
  exact ⟨h.1, h.2 rUnit rfl⟩

/-- C9: the bank leaderboard lists every tracked member, in descending
order of balance; in particular balances 50, 10, 30 are listed in the order
50, 30, 10. -/
theorem C9_leaderboard_sorted (econ : List (Nat × ℚ)) :
    List.Sorted (fun a b : ℚ => b ≤ a) ((leaderboard econ).map Prod.snd)
    ∧ (leaderboard econ).Perm econ
    ∧ leaderboard [(1, 50), (2, 10), (3, 30)]
        = [(1, 50), (3, 30), (2, 10)] := by
  refine ⟨?_, perm_leaderboard econ, ?_⟩
  · exact List.pairwise_map.mpr (sorted_leaderboard econ)
  · norm_num [leaderboard, insertDesc]

/-- C10, counterexample: the claim's clause that no operation other than
pet and tick changes happiness fails for respawn, which resets the dead
plant's happiness from 10 to 50. -/
theorem C10_counterexample :
    Op.respawn ≠ Op.pet
    ∧ deadState.plant.happiness = 10
    ∧ (step Op.respawn deadState).plant.happiness = 50 := by
  refine ⟨fun h => Op.noConfusion h, rfl, ?_⟩
  norm_num [step, respawn, deadState, reset_plant]

/-- C10, amended: happiness lies in [0, 100] in every reachable state: the
initial value is 50, pet clamps the +10 increase at 100, a tick while alive
multiplies happiness by the non-negative factor 0.9925, respawn of a dead
plant resets it to 50, and no other operation changes it; consequently the
mood derivation returns one of the six labels in every reachable state. -/
theorem C10_amended_happiness_inv (ops : List Op) (s : ManagerState)
    (op : Op) (r : TickRandom)
    (hpet : op ≠ Op.pet) (hres : op ≠ Op.respawn)
    (htick : ∀ r2, op ≠ Op.tick r2) :
    (0 ≤ (steps ops initial_state).plant.happiness
      ∧ (steps ops initial_state).plant.happiness ≤ 100)
    ∧ (mood (steps ops initial_state).plant.happiness = some ("Depressed")
      ∨ mood (steps ops initial_state).plant.happiness = some ("Sad")
      ∨ mood (steps ops initial_state).plant.happiness = some ("Wilting")
      ∨ mood (steps ops initial_state).plant.happiness = some ("Mediocre")
      ∨ mood (steps ops initial_state).plant.happiness = some ("Happy")
      ∨ mood (steps ops initial_state).plant.happiness = some ("Joyous"))
    ∧ initial_state.plant.happiness = 50
    ∧ (s.plant.alive = true →
        (step Op.pet s).plant.happiness = min (s.plant.happiness + 10) 100)
    ∧ (s.plant.alive = true →
        (step (Op.tick r) s).plant.happiness
          = s.plant.happiness * (9925/10000))
    ∧ (s.plant.alive = false → (step Op.respawn s).plant.happiness = 50)
    ∧ (step op s).plant.happiness = s.plant.happiness := by
  have hb := steps_happiness_bounds ops initial_state
    (by norm_num [initial_state, reset_plant])
    (by norm_num [initial_state, reset_plant])
  refine ⟨hb, mood_six _ hb.1 hb.2, rfl, ?_, ?_, ?_,
    step_happiness_eq op s hpet hres htick⟩
  · intro hal
    simp [step, pet, hal]
  · intro hal
    show (tick r s).plant.happiness = _
    rw [tick_happiness, if_pos hal]
  · intro hdead
    simp [step, respawn, hdead, reset_plant]

/-- C10, witness: the invariant statement evaluated after a single pet from
the fresh state, for the water command, and for respawn of a dead state. -/
theorem C10_witness :
    0 ≤ (steps [Op.pet] initial_state).plant.happiness
    ∧ (steps [Op.pet] initial_state).plant.happiness ≤ 100
    ∧ (step Op.water initial_state).plant.happiness
        = initial_state.plant.happiness
    ∧ (step Op.respawn deadState).plant.happiness = 50 := by
  have h1 := C10_amended_happiness_inv [Op.pet] initial_state Op.water rUnit
    (fun hh => Op.noConfusion hh) (fun hh => Op.noConfusion hh)
    (fun r2 hh => Op.noConfusion hh)
  have h2 := C10_amended_happiness_inv [] deadState Op.water rUnit
    (fun hh => Op.noConfusion hh) (fun hh => Op.noConfusion hh)
    (fun r2 hh => Op.noConfusion hh)
  exact ⟨h1.1.1, h1.1.2, h1.2.2.2.2.2.2, h2.2.2.2.2.2.1 rfl⟩

end PlantBot
